import Mathlib

/-!
Shallow embedding of the decaying sell loop of `bot_manager.py` (class
`BotManager`) and `1inch_bot_manager.py` (class `InchBotManager`).

All external blockchain responses (token balance, allowance, gas
estimation, receipt status, account nonce, fee data) are supplied by an
oracle `World`; each kind of call is indexed by how many calls of that
kind happened before, so the controller is a pure function of the oracle.
The outer `while True` loop of `run` is modelled with explicit fuel; the
inner halving loop always terminates for a positive threshold and is run
with fuel `amount + 1`, which is proved sufficient below.
-/

namespace SellBabl

/-- `Web3.to_wei(2, 'gwei')` in `bot_manager.py`. -/
def MAX_PRIORITY_FEE_PER_GAS : Nat := 2 * 10 ^ 9

/-- `GAS_LIMIT = 400000` in `bot_manager.py`. -/
def GAS_LIMIT : Nat := 400000

/-- The fields of the transaction dict built by `build_transaction`
that the embedding tracks. -/
structure Txn where
  amountIn : Nat
  amountOutMin : Nat
  nonce : Nat
  gas : Nat
  maxPriorityFeePerGas : Nat
  maxFeePerGas : Nat
deriving DecidableEq, Repr

/-- Observable external actions of a run. -/
inductive Ev where
  | estimate (tx : Txn) (result : Option Nat)
  | submit (tx : Txn)
  | receiptEv (amount status : Nat)
  | submitError (amount : Nat)
  | approve (amount : Nat)
deriving DecidableEq, Repr

/-- Oracle for every external response the scripts consume.  Calls of each
kind are numbered from 0 in the order the controller makes them. -/
structure World where
  /-- result of the n-th `get_token_balance` call -/
  balances : Nat → Nat
  /-- whether the allowance query in `check_allowance` raises -/
  allowanceRaises : Bool
  /-- allowance returned by the `allowance(...)` call -/
  allowance : Nat
  /-- result of the n-th `web3.eth.estimate_gas` call (`none` = raised) -/
  estGas : Nat → Option Nat
  /-- whether the n-th transaction submission attempt raises -/
  sendRaises : Nat → Bool
  /-- `status` field of the receipt of the n-th submission attempt -/
  receiptStatus : Nat → Nat
  /-- result of the n-th `get_transaction_count` call -/
  nonces : Nat → Nat
  /-- `baseFeePerGas` of the latest block at the n-th fee query -/
  baseFee : Nat → Nat
  /-- `web3.eth.gas_price` at the n-th fee query (1inch variant) -/
  gasPrice : Nat → Nat

/-- Python truthiness of `estimated_gas` in `if estimated_gas:` —
`None` and `0` are falsy. -/
def truthy : Option Nat → Bool
  | none => false
  | some g => !(g == 0)

/-- `BotManager.check_allowance`: `allowance(...) >= amount_in_wei`,
`False` when the query raises. -/
def check_allowance (w : World) (amount_in_wei : Nat) : Bool :=
  if w.allowanceRaises then false else decide (amount_in_wei ≤ w.allowance)

/-- `BotManager.build_transaction`: the fields of the
`swapExactTokensForETH` transaction dict.  `callIdx` counts the
preceding `sell` calls, each of which queried the nonce and fee once. -/
def build_transaction (w : World) (callIdx amount_in_wei amount_out_min_in_wei : Nat) : Txn :=
  { amountIn := amount_in_wei
    amountOutMin := amount_out_min_in_wei
    nonce := w.nonces callIdx
    gas := GAS_LIMIT
    maxPriorityFeePerGas := MAX_PRIORITY_FEE_PER_GAS
    maxFeePerGas := w.baseFee callIdx + MAX_PRIORITY_FEE_PER_GAS }

/-- `BotManager.estimate_gas`: returns the node's estimate, `none` when
`web3.eth.estimate_gas` raises. -/
def estimate_gas (w : World) (estIdx : Nat) (_transaction : Txn) : Option Nat :=
  w.estGas estIdx

/-- `BotManager.sell`.  Returns the value Python returns together with
the external actions performed.  `estIdx` / `txIdx` count the preceding
estimation calls and submission attempts.  With `only_estimate = true`
it returns the gas estimate; otherwise it submits, waits for the
receipt, and returns `None` on every path (receipt status 1, receipt
status ≠ 1, and submission exception alike — lines 189-205). -/
def sell (w : World) (estIdx txIdx amount_in_wei amount_out_min_in_wei : Nat)
    (only_estimate : Bool) : Option Nat × List Ev :=
  let transaction := build_transaction w (estIdx + txIdx) amount_in_wei amount_out_min_in_wei
  if only_estimate then
    (estimate_gas w estIdx transaction,
      [Ev.estimate transaction (estimate_gas w estIdx transaction)])
  else if w.sendRaises txIdx then
    (none, [Ev.submitError amount_in_wei])
  else if w.receiptStatus txIdx = 1 then
    (none, [Ev.submit transaction, Ev.receiptEv amount_in_wei (w.receiptStatus txIdx)])
  else
    (none, [Ev.submit transaction, Ev.receiptEv amount_in_wei (w.receiptStatus txIdx)])

/-- `BotManager.set_allowance`: submits an `approve` transaction;
`False` when signing/sending raises. -/
def set_allowance (w : World) (txIdx amount_in_wei : Nat) : Bool × List Ev :=
  if w.sendRaises txIdx then (false, []) else (true, [Ev.approve amount_in_wei])

/-- Result of one pass of the inner halving loop (`run`, lines 84-101):
the actions performed, the updated call counters, and whether the
`return` statement on line 94 fired. -/
structure LoopOut where
  evs : List Ev
  estIdx : Nat
  txIdx : Nat
  returned : Bool
deriving DecidableEq, Repr

/-- Inner halving loop of `BotManager.run` (lines 84-101), with fuel:
`while amount_in_wei >= T: estimate; if truthy, sell and return when the
result is None; halve`. -/
def sellLoopF (w : World) (T : Nat) : Nat → Nat → Nat → Nat → Option LoopOut
  | 0, _, _, _ => none
  | fuel + 1, amount_in_wei, estIdx, txIdx =>
    if T ≤ amount_in_wei then
      let est := sell w estIdx txIdx amount_in_wei 0 true
      if truthy est.1 then
        let ex := sell w (estIdx + 1) txIdx amount_in_wei 0 false
        if ex.1.isNone then
          some ⟨est.2 ++ ex.2, estIdx + 1, txIdx + 1, true⟩
        else
          match sellLoopF w T fuel (amount_in_wei / 2) (estIdx + 1) (txIdx + 1) with
          | none => none
          | some o => some ⟨est.2 ++ ex.2 ++ o.evs, o.estIdx, o.txIdx, o.returned⟩
      else
        match sellLoopF w T fuel (amount_in_wei / 2) (estIdx + 1) txIdx with
        | none => none
        | some o => some ⟨est.2 ++ o.evs, o.estIdx, o.txIdx, o.returned⟩
    else
      some ⟨[], estIdx, txIdx, false⟩

/-- The inner loop run with fuel `amount + 1`, which suffices whenever
`1 ≤ T` (proved in `sellLoopF_isSome`). -/
def sellLoopRun (w : World) (T amount_in_wei estIdx txIdx : Nat) : LoopOut :=
  (sellLoopF w T (amount_in_wei + 1) amount_in_wei estIdx txIdx).getD
    ⟨[], estIdx, txIdx, false⟩

/-- How `BotManager.run` ended. `outOfFuel` marks that the modelled
`while True` loop was still running when the fuel ran out. -/
inductive RunResult where
  | insufficientAllowance
  | earlyReturn
  | drained
  | outOfFuel
deriving DecidableEq, Repr

/-- Outer `while True` loop of `BotManager.run` (lines 77-109), with
fuel.  `balIdx` counts the preceding balance queries. -/
def runLoopF (w : World) (T : Nat) : Nat → Nat → Nat → Nat → List Ev × RunResult
  | 0, _, _, _ => ([], RunResult.outOfFuel)
  | fuel + 1, balIdx, estIdx, txIdx =>
    let token_balance := w.balances balIdx
    let o := sellLoopRun w T token_balance estIdx txIdx
    if o.returned then (o.evs, RunResult.earlyReturn)
    else if token_balance = 0 then (o.evs, RunResult.drained)
    else
      let rest := runLoopF w T fuel (balIdx + 1) o.estIdx o.txIdx
      (o.evs ++ rest.1, rest.2)

/-- `BotManager.run`: one balance query, the allowance gate (lines
70-75), then the outer loop.  `T` is the threshold literal
`1000000000000000000` of line 85. -/
def run (w : World) (T fuel : Nat) : List Ev × RunResult :=
  let token_balance := w.balances 0
  if check_allowance w token_balance then runLoopF w T fuel 1 0 0
  else ([], RunResult.insufficientAllowance)

/-- The amounts passed to gas estimation, in order. -/
def attempts (evs : List Ev) : List Nat :=
  evs.filterMap fun e =>
    match e with
    | Ev.estimate tx _ => some tx.amountIn
    | _ => none

/-- Whether an event is a transaction submission. -/
def isSubmit : Ev → Bool
  | Ev.submit _ => true
  | _ => false

/-- Whether an event is an approval submission. -/
def isApprove : Ev → Bool
  | Ev.approve _ => true
  | _ => false

/-- The receipts observed, as (amount, status) pairs. -/
def receipts (evs : List Ev) : List (Nat × Nat) :=
  evs.filterMap fun e =>
    match e with
    | Ev.receiptEv a s => some (a, s)
    | _ => none

/-- Modelled from the spec: the sequence `B, floor(B/2), floor(B/4), ...`
stopping before the first term `< T`, with fuel. -/
def specSeqF (T : Nat) : Nat → Nat → List Nat
  | 0, _ => []
  | fuel + 1, b => if T ≤ b then b :: specSeqF T fuel (b / 2) else []

/-- Modelled from the spec: the full halving sequence from `B` down to
the threshold `T`. -/
def specSeq (T b : Nat) : List Nat :=
  specSeqF T (b + 1) b

end SellBabl

namespace SellBablInch

open SellBabl (Txn Ev World truthy check_allowance LoopOut RunResult GAS_LIMIT)

/-- `Web3.to_wei(1, 'gwei')` in `1inch_bot_manager.py`. -/
def MAX_PRIORITY_FEE_PER_GAS : Nat := 10 ^ 9

/-- `InchBotManager.build_transaction`: the 1inch `swap` transaction;
its fee is `web3.eth.gas_price` directly. -/
def build_transaction (w : World) (callIdx amount_in_wei amount_out_min_in_wei : Nat) : Txn :=
  { amountIn := amount_in_wei
    amountOutMin := amount_out_min_in_wei
    nonce := w.nonces callIdx
    gas := GAS_LIMIT
    maxPriorityFeePerGas := MAX_PRIORITY_FEE_PER_GAS
    maxFeePerGas := w.gasPrice callIdx }

/-- `InchBotManager.sell`.  Like `BotManager.sell` it returns `None` on
every non-estimate path (lines 192-211).  Its `execute_swap` returns a
hardcoded hash without broadcasting (line 292), so no submit event is
emitted; the receipt wait is still consulted. -/
def sell (w : World) (estIdx txIdx amount_in_wei amount_out_min_in_wei : Nat)
    (only_estimate : Bool) : Option Nat × List Ev :=
  let transaction := build_transaction w (estIdx + txIdx) amount_in_wei amount_out_min_in_wei
  if only_estimate then
    (w.estGas estIdx, [Ev.estimate transaction (w.estGas estIdx)])
  else if w.sendRaises txIdx then
    (none, [Ev.submitError amount_in_wei])
  else
    (none, [Ev.receiptEv amount_in_wei (w.receiptStatus txIdx)])

/-- Inner halving loop of `InchBotManager.run` (lines 85-102), with
fuel; the threshold literal on line 86 is `1000000`. -/
def sellLoopF (w : World) (T : Nat) : Nat → Nat → Nat → Nat → Option LoopOut
  | 0, _, _, _ => none
  | fuel + 1, amount_in_wei, estIdx, txIdx =>
    if T ≤ amount_in_wei then
      let est := sell w estIdx txIdx amount_in_wei 0 true
      if truthy est.1 then
        let ex := sell w (estIdx + 1) txIdx amount_in_wei 0 false
        if ex.1.isNone then
          some ⟨est.2 ++ ex.2, estIdx + 1, txIdx + 1, true⟩
        else
          match sellLoopF w T fuel (amount_in_wei / 2) (estIdx + 1) (txIdx + 1) with
          | none => none
          | some o => some ⟨est.2 ++ ex.2 ++ o.evs, o.estIdx, o.txIdx, o.returned⟩
      else
        match sellLoopF w T fuel (amount_in_wei / 2) (estIdx + 1) txIdx with
        | none => none
        | some o => some ⟨est.2 ++ o.evs, o.estIdx, o.txIdx, o.returned⟩
    else
      some ⟨[], estIdx, txIdx, false⟩

/-- The inner 1inch loop run with fuel `amount + 1`. -/
def sellLoopRun (w : World) (T amount_in_wei estIdx txIdx : Nat) : LoopOut :=
  (sellLoopF w T (amount_in_wei + 1) amount_in_wei estIdx txIdx).getD
    ⟨[], estIdx, txIdx, false⟩

/-- Outer `while True` loop of `InchBotManager.run` (lines 78-111). -/
def runLoopF (w : World) (T : Nat) : Nat → Nat → Nat → Nat → List Ev × RunResult
  | 0, _, _, _ => ([], RunResult.outOfFuel)
  | fuel + 1, balIdx, estIdx, txIdx =>
    let token_balance := w.balances balIdx
    let o := sellLoopRun w T token_balance estIdx txIdx
    if o.returned then (o.evs, RunResult.earlyReturn)
    else if token_balance = 0 then (o.evs, RunResult.drained)
    else
      let rest := runLoopF w T fuel (balIdx + 1) o.estIdx o.txIdx
      (o.evs ++ rest.1, rest.2)

/-- `InchBotManager.run` (lines 63-111): the allowance check's result is
only logged — the `set_allowance` call is commented out (lines 74-76) —
and the loop is entered regardless. -/
def run (w : World) (T fuel : Nat) : List Ev × RunResult :=
  let _allowance_ok := check_allowance w (w.balances 0)
  runLoopF w T fuel 1 0 0

end SellBablInch

namespace SellBabl

/-- The part of a loop pass that is observable to the controller's
control flow: attempted amounts and updated counters, but not the
nonce/fee payload of the built transactions. -/
def obs (o : LoopOut) : List Nat × Nat × Nat × Bool :=
  (attempts o.evs, o.estIdx, o.txIdx, o.returned)

/-- Oracle on which every gas estimation raises; the wallet holds
2·10^18 token units throughout and the allowance is ample. -/
def oracleFail : World :=
  { balances := fun _ => 2 * 10 ^ 18
    allowanceRaises := false
    allowance := 10 ^ 30
    estGas := fun _ => none
    sendRaises := fun _ => false
    receiptStatus := fun _ => 1
    nonces := fun i => i
    baseFee := fun _ => 10 ^ 9
    gasPrice := fun _ => 10 ^ 9 }

/-- Oracle on which every gas estimation succeeds (21000), submission
never raises, and every receipt reports status 1 (success); the wallet
holds 4·10^18 token units. -/
def oracleOk : World :=
  { balances := fun _ => 4 * 10 ^ 18
    allowanceRaises := false
    allowance := 10 ^ 30
    estGas := fun _ => some 21000
    sendRaises := fun _ => false
    receiptStatus := fun _ => 1
    nonces := fun i => i
    baseFee := fun _ => 10 ^ 9
    gasPrice := fun _ => 10 ^ 9 }

/-- Oracle with a zero allowance and a balance of 2·10^6 smallest
units; every gas estimation raises. -/
def oracleNoAllow : World :=
  { balances := fun _ => 2 * 10 ^ 6
    allowanceRaises := false
    allowance := 0
    estGas := fun _ => none
    sendRaises := fun _ => false
    receiptStatus := fun _ => 1
    nonces := fun i => i
    baseFee := fun _ => 10 ^ 9
    gasPrice := fun _ => 10 ^ 9 }

/-- Oracle with a zero token balance. -/
def oracleZero : World :=
  { balances := fun _ => 0
    allowanceRaises := false
    allowance := 10 ^ 30
    estGas := fun _ => none
    sendRaises := fun _ => false
    receiptStatus := fun _ => 1
    nonces := fun i => i
    baseFee := fun _ => 10 ^ 9
    gasPrice := fun _ => 10 ^ 9 }

@[simp] theorem attempts_nil : attempts [] = [] := rfl

@[simp] theorem attempts_cons_estimate (tx : Txn) (r : Option Nat) (l : List Ev) :
    attempts (Ev.estimate tx r :: l) = tx.amountIn :: attempts l := rfl

@[simp] theorem attempts_cons_submit (tx : Txn) (l : List Ev) :
    attempts (Ev.submit tx :: l) = attempts l := rfl

@[simp] theorem attempts_cons_receipt (a s : Nat) (l : List Ev) :
    attempts (Ev.receiptEv a s :: l) = attempts l := rfl

@[simp] theorem attempts_cons_submitError (a : Nat) (l : List Ev) :
    attempts (Ev.submitError a :: l) = attempts l := rfl

@[simp] theorem attempts_cons_approve (a : Nat) (l : List Ev) :
    attempts (Ev.approve a :: l) = attempts l := rfl

@[simp] theorem attempts_append (l₁ l₂ : List Ev) :
    attempts (l₁ ++ l₂) = attempts l₁ ++ attempts l₂ :=
  List.filterMap_append _ _ _

/-- `sell` with `only_estimate = False` returns `None` on every path. -/
theorem sell_exec_fst (w : World) (e t a m : Nat) : (sell w e t a m false).1 = none := by
  unfold sell
  by_cases hs : w.sendRaises t <;> by_cases hr : w.receiptStatus t = 1 <;> simp [hs, hr]

/-- The actions of an executed (non-estimate) `sell` contain no gas
estimation, hence contribute no attempted amount. -/
theorem attempts_sell_exec (w : World) (e t a m : Nat) :
    attempts (sell w e t a m false).2 = [] := by
  unfold sell
  by_cases hs : w.sendRaises t <;> by_cases hr : w.receiptStatus t = 1 <;> simp [hs, hr]

/-- The actions of an executed `sell` contain no approval. -/
theorem filter_approve_sell_exec (w : World) (e t a m : Nat) :
    (sell w e t a m false).2.filter isApprove = [] := by
  unfold sell
  by_cases hs : w.sendRaises t <;> by_cases hr : w.receiptStatus t = 1 <;>
    simp [hs, hr, isApprove, List.filter]

/-- Inner-loop step when the amount has dropped below the threshold. -/
theorem sellLoopF_stop (w : World) (T fuel a e t : Nat) (h : ¬ T ≤ a) :
    sellLoopF w T (fuel + 1) a e t = some ⟨[], e, t, false⟩ := by
  simp [sellLoopF, h]

/-- Inner-loop step when the gas estimate is truthy: the transaction is
executed and, its result being `None`, the pass returns immediately. -/
theorem sellLoopF_submit (w : World) (T fuel a e t : Nat) (hTa : T ≤ a)
    (hE : truthy (w.estGas e) = true) :
    sellLoopF w T (fuel + 1) a e t =
      some ⟨Ev.estimate (build_transaction w (e + t) a 0) (w.estGas e)
              :: (sell w (e + 1) t a 0 false).2,
            e + 1, t + 1, true⟩ := by
  unfold sellLoopF
  by_cases hs : w.sendRaises t <;> by_cases hr : w.receiptStatus t = 1 <;>
    simp [sell, estimate_gas, hTa, hE, hs, hr]

/-- Inner-loop step when the gas estimate is falsy: the amount is
skipped and halved once. -/
theorem sellLoopF_skip (w : World) (T fuel a e t : Nat) (hTa : T ≤ a)
    (hE : truthy (w.estGas e) = false) :
    sellLoopF w T (fuel + 1) a e t =
      (sellLoopF w T fuel (a / 2) (e + 1) t).map fun o =>
        ⟨Ev.estimate (build_transaction w (e + t) a 0) (w.estGas e) :: o.evs,
          o.estIdx, o.txIdx, o.returned⟩ := by
  cases h : sellLoopF w T fuel (a / 2) (e + 1) t <;>
    simp [sellLoopF, sell, estimate_gas, hTa, hE, h]

/-- For a positive threshold, fuel `amount + 1` is enough for the inner
loop: each pass halves the amount, which is at least 1 while the guard
holds. -/
theorem sellLoopF_isSome (w : World) (T : Nat) (hT : 1 ≤ T) :
    ∀ fuel a e t, a < fuel → (sellLoopF w T fuel a e t).isSome = true := by
  intro fuel
  induction fuel with
  | zero => intro a e t h; omega
  | succ fuel ih =>
    intro a e t h
    by_cases hTa : T ≤ a
    · by_cases hE : truthy (w.estGas e) = true
      · rw [sellLoopF_submit w T fuel a e t hTa hE]; rfl
      · rw [sellLoopF_skip w T fuel a e t hTa (by simpa using hE)]
        have hdiv : a / 2 < a := Nat.div_lt_self (by omega) (by omega)
        have := ih (a / 2) (e + 1) t (by omega)
        cases hrec : sellLoopF w T fuel (a / 2) (e + 1) t with
        | none => rw [hrec] at this; simp at this
        | some o => simp
    · rw [sellLoopF_stop w T fuel a e t hTa]; rfl

/-- The inner loop's output does not change once the fuel suffices. -/
theorem sellLoopF_mono (w : World) (T : Nat) :
    ∀ fuel fuel' a e t o, fuel ≤ fuel' → sellLoopF w T fuel a e t = some o →
      sellLoopF w T fuel' a e t = some o := by
  intro fuel
  induction fuel with
  | zero => intro fuel' a e t o _ h; simp [sellLoopF] at h
  | succ fuel ih =>
    intro fuel' a e t o hle h
    obtain ⟨f', rfl⟩ : ∃ f', fuel' = f' + 1 := ⟨fuel' - 1, by omega⟩
    by_cases hTa : T ≤ a
    · by_cases hE : truthy (w.estGas e) = true
      · rw [sellLoopF_submit w T fuel a e t hTa hE] at h
        rw [sellLoopF_submit w T f' a e t hTa hE]
        exact h
      · have hE' : truthy (w.estGas e) = false := by simpa using hE
        rw [sellLoopF_skip w T fuel a e t hTa hE'] at h
        rw [sellLoopF_skip w T f' a e t hTa hE']
        obtain ⟨o', ho', rfl⟩ := Option.map_eq_some'.mp h
        rw [ih f' (a / 2) (e + 1) t o' (by omega) ho']
        rfl
    · rw [sellLoopF_stop w T fuel a e t hTa] at h
      rw [sellLoopF_stop w T f' a e t hTa]
      exact h

/-- With a positive threshold, `sellLoopF` at any sufficient fuel
computes `sellLoopRun`. -/
theorem sellLoopRun_eq (w : World) (T fuel a e t : Nat) (hT : 1 ≤ T) (hf : a < fuel) :
    sellLoopF w T fuel a e t = some (sellLoopRun w T a e t) := by
  have h1 := sellLoopF_isSome w T hT (a + 1) a e t (Nat.lt_succ_self a)
  obtain ⟨o, ho⟩ := Option.isSome_iff_exists.mp h1
  have : sellLoopRun w T a e t = o := by simp [sellLoopRun, ho]
  rw [this]
  exact sellLoopF_mono w T (a + 1) fuel a e t o (by omega) ho

/-- When no gas estimate is truthy, a pass of the inner loop estimates
exactly the spec's halving sequence, submits nothing, leaves the
submission counter unchanged, and does not return early. -/
theorem sellLoopF_noTruthy (w : World) (T : Nat)
    (hest : ∀ i, truthy (w.estGas i) = false) :
    ∀ fuel a e t o, sellLoopF w T fuel a e t = some o →
      attempts o.evs = specSeqF T fuel a ∧ o.returned = false ∧ o.txIdx = t ∧
        o.evs.filter isSubmit = [] := by
  intro fuel
  induction fuel with
  | zero => intro a e t o h; simp [sellLoopF] at h
  | succ fuel ih =>
    intro a e t o h
    by_cases hTa : T ≤ a
    · rw [sellLoopF_skip w T fuel a e t hTa (hest e)] at h
      obtain ⟨o', ho', rfl⟩ := Option.map_eq_some'.mp h
      obtain ⟨h1, h2, h3, h4⟩ := ih (a / 2) (e + 1) t o' ho'
      refine ⟨?_, h2, h3, ?_⟩
      · simp [specSeqF, hTa, h1, build_transaction]
      · simpa [isSubmit, List.filter] using h4
    · rw [sellLoopF_stop w T fuel a e t hTa] at h
      cases h
      simp [specSeqF, hTa, isSubmit]

/-- Each inner-loop pass emits no approval transaction. -/
theorem sellLoopF_no_approve (w : World) (T : Nat) :
    ∀ fuel a e t o, sellLoopF w T fuel a e t = some o →
      o.evs.filter isApprove = [] := by
  intro fuel
  induction fuel with
  | zero => intro a e t o h; simp [sellLoopF] at h
  | succ fuel ih =>
    intro a e t o h
    by_cases hTa : T ≤ a
    · by_cases hE : truthy (w.estGas e) = true
      · rw [sellLoopF_submit w T fuel a e t hTa hE] at h
        cases h
        have := filter_approve_sell_exec w (e + 1) t a 0
        simpa [isApprove, List.filter] using this
      · rw [sellLoopF_skip w T fuel a e t hTa (by simpa using hE)] at h
        obtain ⟨o', ho', rfl⟩ := Option.map_eq_some'.mp h
        have := ih (a / 2) (e + 1) t o' ho'
        simpa [isApprove, List.filter] using this
    · rw [sellLoopF_stop w T fuel a e t hTa] at h
      cases h
      simp [isApprove]

/-- The attempted amounts of an inner-loop pass form a halving chain,
all of them at or above the threshold, and start at the pass's starting
amount when nonempty. -/
theorem sellLoopF_chain (w : World) (T : Nat) :
    ∀ fuel a e t o, sellLoopF w T fuel a e t = some o →
      List.Chain' (fun x y => y = x / 2) (attempts o.evs) ∧
        (∀ x ∈ attempts o.evs, T ≤ x) ∧
        (∀ y, (attempts o.evs).head? = some y → y = a) := by
  intro fuel
  induction fuel with
  | zero => intro a e t o h; simp [sellLoopF] at h
  | succ fuel ih =>
    intro a e t o h
    by_cases hTa : T ≤ a
    · by_cases hE : truthy (w.estGas e) = true
      · rw [sellLoopF_submit w T fuel a e t hTa hE] at h
        cases h
        simp [attempts_sell_exec, build_transaction, hTa]
      · rw [sellLoopF_skip w T fuel a e t hTa (by simpa using hE)] at h
        obtain ⟨o', ho', rfl⟩ := Option.map_eq_some'.mp h
        obtain ⟨h1, h2, h3⟩ := ih (a / 2) (e + 1) t o' ho'
        refine ⟨?_, ?_, ?_⟩
        · simp only [attempts_cons_estimate, build_transaction]
          rw [List.chain'_cons']
          refine ⟨?_, h1⟩
          intro y hy
          exact h3 y hy
        · intro x hx
          simp only [attempts_cons_estimate, build_transaction, List.mem_cons] at hx
          rcases hx with rfl | hx
          · exact hTa
          · exact h2 x hx
        · intro y hy
          simp only [attempts_cons_estimate, build_transaction, List.head?] at hy
          exact (Option.some.inj hy).symm
    · rw [sellLoopF_stop w T fuel a e t hTa] at h
      cases h
      simp

/-- When no gas estimate is truthy, no pass returns early. -/
theorem sellLoopRun_returned_noTruthy (w : World) (T : Nat)
    (hest : ∀ i, truthy (w.estGas i) = false) (a e t : Nat) :
    (sellLoopRun w T a e t).returned = false := by
  unfold sellLoopRun
  cases h : sellLoopF w T (a + 1) a e t with
  | none => rfl
  | some o => simpa using (sellLoopF_noTruthy w T hest (a + 1) a e t o h).2.1

/-- When no gas estimate is truthy, a pass submits nothing. -/
theorem sellLoopRun_filter_submit_noTruthy (w : World) (T : Nat)
    (hest : ∀ i, truthy (w.estGas i) = false) (a e t : Nat) :
    (sellLoopRun w T a e t).evs.filter isSubmit = [] := by
  unfold sellLoopRun
  cases h : sellLoopF w T (a + 1) a e t with
  | none => rfl
  | some o => simpa using (sellLoopF_noTruthy w T hest (a + 1) a e t o h).2.2.2

/-- One unfolding step of the outer loop. -/
theorem runLoopF_step (w : World) (T fuel bi e t : Nat) :
    runLoopF w T (fuel + 1) bi e t =
      (if (sellLoopRun w T (w.balances bi) e t).returned then
        ((sellLoopRun w T (w.balances bi) e t).evs, RunResult.earlyReturn)
      else if w.balances bi = 0 then
        ((sellLoopRun w T (w.balances bi) e t).evs, RunResult.drained)
      else
        ((sellLoopRun w T (w.balances bi) e t).evs ++
            (runLoopF w T fuel (bi + 1) (sellLoopRun w T (w.balances bi) e t).estIdx
              (sellLoopRun w T (w.balances bi) e t).txIdx).1,
          (runLoopF w T fuel (bi + 1) (sellLoopRun w T (w.balances bi) e t).estIdx
            (sellLoopRun w T (w.balances bi) e t).txIdx).2)) := rfl

/-- When no gas estimate is truthy, the outer loop submits nothing. -/
theorem runLoopF_no_submit (w : World) (T : Nat)
    (hest : ∀ i, truthy (w.estGas i) = false) :
    ∀ fuel bi e t, (runLoopF w T fuel bi e t).1.filter isSubmit = [] := by
  intro fuel
  induction fuel with
  | zero => intro bi e t; rfl
  | succ fuel ih =>
    intro bi e t
    have hret := sellLoopRun_returned_noTruthy w T hest (w.balances bi) e t
    have hsub := sellLoopRun_filter_submit_noTruthy w T hest (w.balances bi) e t
    rw [runLoopF_step, hret]
    simp only [Bool.false_eq_true, if_false]
    by_cases hb : w.balances bi = 0
    · rw [if_pos hb]; exact hsub
    · rw [if_neg hb]
      simp only [List.filter_append, hsub, ih, List.nil_append]

/-- When no gas estimate is truthy, the outer loop runs out of any
amount of fuel exactly when every balance it reads is nonzero. -/
theorem runLoopF_outOfFuel_iff (w : World) (T : Nat)
    (hest : ∀ i, truthy (w.estGas i) = false) :
    ∀ fuel bi e t, ((runLoopF w T fuel bi e t).2 = RunResult.outOfFuel ↔
      ∀ k, k < fuel → w.balances (bi + k) ≠ 0) := by
  intro fuel
  induction fuel with
  | zero => intro bi e t; simp [runLoopF]
  | succ fuel ih =>
    intro bi e t
    have hret := sellLoopRun_returned_noTruthy w T hest (w.balances bi) e t
    rw [runLoopF_step, hret]
    simp only [Bool.false_eq_true, if_false]
    by_cases hb : w.balances bi = 0
    · rw [if_pos hb]
      constructor
      · intro hcon; simp at hcon
      · intro hall
        exact absurd (by simpa using hb : w.balances (bi + 0) = 0) (hall 0 (by omega))
    · rw [if_neg hb]
      show (runLoopF w T fuel (bi + 1) _ _).2 = RunResult.outOfFuel ↔ _
      rw [ih (bi + 1) _ _]
      constructor
      · intro h k hk
        cases k with
        | zero => simpa using hb
        | succ j =>
          have := h j (by omega)
          have hidx : bi + 1 + j = bi + (j + 1) := by omega
          rwa [hidx] at this
      · intro h k hk
        have := h (k + 1) (by omega)
        have hidx : bi + (k + 1) = bi + 1 + k := by omega
        rwa [hidx] at this

/-- The controller's control flow and attempted amounts are insensitive
to the nonce and fee responses: they only enter the transaction
payload, never a branch condition. -/
theorem sellLoopF_obs (w : World) (T : Nat) (n b g : Nat → Nat) :
    ∀ fuel a e t,
      (sellLoopF {w with nonces := n, baseFee := b, gasPrice := g} T fuel a e t).map obs
        = (sellLoopF w T fuel a e t).map obs := by
  intro fuel
  induction fuel with
  | zero => intro a e t; rfl
  | succ fuel ih =>
    intro a e t
    by_cases hTa : T ≤ a
    · by_cases hE : truthy (w.estGas e) = true
      · rw [sellLoopF_submit w T fuel a e t hTa hE,
          sellLoopF_submit {w with nonces := n, baseFee := b, gasPrice := g} T fuel a e t hTa hE]
        simp [obs, attempts_sell_exec, build_transaction]
      · have hE' : truthy (w.estGas e) = false := by simpa using hE
        rw [sellLoopF_skip w T fuel a e t hTa hE',
          sellLoopF_skip {w with nonces := n, baseFee := b, gasPrice := g} T fuel a e t hTa hE']
        have hrec := ih (a / 2) (e + 1) t
        cases h1 : sellLoopF {w with nonces := n, baseFee := b, gasPrice := g} T fuel (a / 2) (e + 1) t with
        | none =>
          cases h2 : sellLoopF w T fuel (a / 2) (e + 1) t with
          | none => rfl
          | some o2 => rw [h1, h2] at hrec; simp at hrec
        | some o1 =>
          cases h2 : sellLoopF w T fuel (a / 2) (e + 1) t with
          | none => rw [h1, h2] at hrec; simp at hrec
          | some o2 =>
            rw [h1, h2] at hrec
            simp only [obs, Option.map_some', Option.some.injEq, Prod.mk.injEq] at hrec
            obtain ⟨q1, q2, q3, q4⟩ := hrec
            simp [obs, build_transaction, q1, q2, q3, q4]
    · rw [sellLoopF_stop w T fuel a e t hTa,
        sellLoopF_stop {w with nonces := n, baseFee := b, gasPrice := g} T fuel a e t hTa]

/-- `sellLoopRun` under changed nonce/fee responses: same observable
output. -/
theorem sellLoopRun_obs (w : World) (T : Nat) (n b g : Nat → Nat) (a e t : Nat) :
    obs (sellLoopRun {w with nonces := n, baseFee := b, gasPrice := g} T a e t)
      = obs (sellLoopRun w T a e t) := by
  have hrec := sellLoopF_obs w T n b g (a + 1) a e t
  unfold sellLoopRun
  cases h1 : sellLoopF {w with nonces := n, baseFee := b, gasPrice := g} T (a + 1) a e t with
  | none =>
    cases h2 : sellLoopF w T (a + 1) a e t with
    | none => rfl
    | some o2 => rw [h1, h2] at hrec; simp at hrec
  | some o1 =>
    cases h2 : sellLoopF w T (a + 1) a e t with
    | none => rw [h1, h2] at hrec; simp at hrec
    | some o2 =>
      rw [h1, h2] at hrec
      simpa using hrec

/-- The outer loop under changed nonce/fee responses: same attempted
amounts and same exit result. -/
theorem runLoopF_obs (w : World) (T : Nat) (n b g : Nat → Nat) :
    ∀ fuel bi e t,
      attempts (runLoopF {w with nonces := n, baseFee := b, gasPrice := g} T fuel bi e t).1
          = attempts (runLoopF w T fuel bi e t).1 ∧
        (runLoopF {w with nonces := n, baseFee := b, gasPrice := g} T fuel bi e t).2
          = (runLoopF w T fuel bi e t).2 := by
  intro fuel
  induction fuel with
  | zero => intro bi e t; exact ⟨rfl, rfl⟩
  | succ fuel ih =>
    intro bi e t
    have hobs := sellLoopRun_obs w T n b g (w.balances bi) e t
    simp only [obs, Prod.mk.injEq] at hobs
    obtain ⟨q1, q2, q3, q4⟩ := hobs
    rw [runLoopF_step, runLoopF_step]
    show _ ∧ _
    rw [q2, q3, q4]
    by_cases hret : (sellLoopRun w T (w.balances bi) e t).returned
    · rw [if_pos hret, if_pos hret]
      exact ⟨q1, rfl⟩
    · rw [if_neg hret, if_neg hret]
      by_cases hb : w.balances bi = 0
      · rw [if_pos hb, if_pos hb]
        exact ⟨q1, rfl⟩
      · rw [if_neg hb, if_neg hb]
        obtain ⟨r1, r2⟩ := ih (bi + 1) (sellLoopRun w T (w.balances bi) e t).estIdx
          (sellLoopRun w T (w.balances bi) e t).txIdx
        refine ⟨?_, r2⟩
        simp only [attempts_append, q1, r1]

end SellBabl

namespace SellBablInch

open SellBabl (Txn Ev World truthy check_allowance LoopOut RunResult attempts isApprove
  isSubmit specSeqF specSeq)

/-- `InchBotManager.sell` with `only_estimate = False` returns `None` on
every path. -/
theorem inch_sell_exec_fst (w : World) (e t a m : Nat) :
    (sell w e t a m false).1 = none := by
  unfold sell
  by_cases hs : w.sendRaises t <;> simp [hs]

/-- The actions of an executed 1inch `sell` contain no gas estimation. -/
theorem inch_attempts_sell_exec (w : World) (e t a m : Nat) :
    attempts (sell w e t a m false).2 = [] := by
  unfold sell
  by_cases hs : w.sendRaises t <;> simp [hs]

/-- The actions of an executed 1inch `sell` contain no approval. -/
theorem inch_filter_approve_sell_exec (w : World) (e t a m : Nat) :
    (sell w e t a m false).2.filter isApprove = [] := by
  unfold sell
  by_cases hs : w.sendRaises t <;> simp [hs, isApprove, List.filter]

/-- 1inch inner-loop step below the threshold. -/
theorem inch_sellLoopF_stop (w : World) (T fuel a e t : Nat) (h : ¬ T ≤ a) :
    sellLoopF w T (fuel + 1) a e t = some ⟨[], e, t, false⟩ := by
  simp [sellLoopF, h]

/-- 1inch inner-loop step on a truthy estimate: execute and return. -/
theorem inch_sellLoopF_submit (w : World) (T fuel a e t : Nat) (hTa : T ≤ a)
    (hE : truthy (w.estGas e) = true) :
    sellLoopF w T (fuel + 1) a e t =
      some ⟨Ev.estimate (build_transaction w (e + t) a 0) (w.estGas e)
              :: (sell w (e + 1) t a 0 false).2,
            e + 1, t + 1, true⟩ := by
  unfold sellLoopF
  by_cases hs : w.sendRaises t <;> simp [sell, hTa, hE, hs]

/-- 1inch inner-loop step on a falsy estimate: skip and halve once. -/
theorem inch_sellLoopF_skip (w : World) (T fuel a e t : Nat) (hTa : T ≤ a)
    (hE : truthy (w.estGas e) = false) :
    sellLoopF w T (fuel + 1) a e t =
      (sellLoopF w T fuel (a / 2) (e + 1) t).map fun o =>
        ⟨Ev.estimate (build_transaction w (e + t) a 0) (w.estGas e) :: o.evs,
          o.estIdx, o.txIdx, o.returned⟩ := by
  cases h : sellLoopF w T fuel (a / 2) (e + 1) t <;>
    simp [sellLoopF, sell, hTa, hE, h]

/-- Fuel `amount + 1` is enough for the 1inch inner loop when the
threshold is positive. -/
theorem inch_sellLoopF_isSome (w : World) (T : Nat) (hT : 1 ≤ T) :
    ∀ fuel a e t, a < fuel → (sellLoopF w T fuel a e t).isSome = true := by
  intro fuel
  induction fuel with
  | zero => intro a e t h; omega
  | succ fuel ih =>
    intro a e t h
    by_cases hTa : T ≤ a
    · by_cases hE : truthy (w.estGas e) = true
      · rw [inch_sellLoopF_submit w T fuel a e t hTa hE]; rfl
      · rw [inch_sellLoopF_skip w T fuel a e t hTa (by simpa using hE)]
        have hdiv : a / 2 < a := Nat.div_lt_self (by omega) (by omega)
        have := ih (a / 2) (e + 1) t (by omega)
        cases hrec : sellLoopF w T fuel (a / 2) (e + 1) t with
        | none => rw [hrec] at this; simp at this
        | some o => simp
    · rw [inch_sellLoopF_stop w T fuel a e t hTa]; rfl

/-- When no gas estimate is truthy, a 1inch pass estimates exactly the
halving sequence, returns normally, and submits nothing. -/
theorem inch_sellLoopF_noTruthy (w : World) (T : Nat)
    (hest : ∀ i, truthy (w.estGas i) = false) :
    ∀ fuel a e t o, sellLoopF w T fuel a e t = some o →
      attempts o.evs = specSeqF T fuel a ∧ o.returned = false := by
  intro fuel
  induction fuel with
  | zero => intro a e t o h; simp [sellLoopF] at h
  | succ fuel ih =>
    intro a e t o h
    by_cases hTa : T ≤ a
    · rw [inch_sellLoopF_skip w T fuel a e t hTa (hest e)] at h
      obtain ⟨o', ho', rfl⟩ := Option.map_eq_some'.mp h
      obtain ⟨h1, h2⟩ := ih (a / 2) (e + 1) t o' ho'
      exact ⟨by simp [specSeqF, hTa, h1, build_transaction], h2⟩
    · rw [inch_sellLoopF_stop w T fuel a e t hTa] at h
      cases h
      simp [specSeqF, hTa]

/-- No 1inch inner-loop pass emits an approval transaction. -/
theorem inch_sellLoopF_no_approve (w : World) (T : Nat) :
    ∀ fuel a e t o, sellLoopF w T fuel a e t = some o →
      o.evs.filter isApprove = [] := by
  intro fuel
  induction fuel with
  | zero => intro a e t o h; simp [sellLoopF] at h
  | succ fuel ih =>
    intro a e t o h
    by_cases hTa : T ≤ a
    · by_cases hE : truthy (w.estGas e) = true
      · rw [inch_sellLoopF_submit w T fuel a e t hTa hE] at h
        cases h
        have := inch_filter_approve_sell_exec w (e + 1) t a 0
        simpa [isApprove, List.filter] using this
      · rw [inch_sellLoopF_skip w T fuel a e t hTa (by simpa using hE)] at h
        obtain ⟨o', ho', rfl⟩ := Option.map_eq_some'.mp h
        have := ih (a / 2) (e + 1) t o' ho'
        simpa [isApprove, List.filter] using this
    · rw [inch_sellLoopF_stop w T fuel a e t hTa] at h
      cases h
      simp [isApprove]

/-- One unfolding step of the 1inch outer loop. -/
theorem inch_runLoopF_step (w : World) (T fuel bi e t : Nat) :
    runLoopF w T (fuel + 1) bi e t =
      (if (sellLoopRun w T (w.balances bi) e t).returned then
        ((sellLoopRun w T (w.balances bi) e t).evs, RunResult.earlyReturn)
      else if w.balances bi = 0 then
        ((sellLoopRun w T (w.balances bi) e t).evs, RunResult.drained)
      else
        ((sellLoopRun w T (w.balances bi) e t).evs ++
            (runLoopF w T fuel (bi + 1) (sellLoopRun w T (w.balances bi) e t).estIdx
              (sellLoopRun w T (w.balances bi) e t).txIdx).1,
          (runLoopF w T fuel (bi + 1) (sellLoopRun w T (w.balances bi) e t).estIdx
            (sellLoopRun w T (w.balances bi) e t).txIdx).2)) := rfl

/-- No 1inch pass emits an approval transaction. -/
theorem inch_sellLoopRun_no_approve (w : World) (T a e t : Nat) :
    (sellLoopRun w T a e t).evs.filter isApprove = [] := by
  unfold sellLoopRun
  cases h : sellLoopF w T (a + 1) a e t with
  | none => rfl
  | some o => simpa using inch_sellLoopF_no_approve w T (a + 1) a e t o h

/-- The 1inch outer loop emits no approval transaction. -/
theorem inch_runLoopF_no_approve (w : World) (T : Nat) :
    ∀ fuel bi e t, (runLoopF w T fuel bi e t).1.filter isApprove = [] := by
  intro fuel
  induction fuel with
  | zero => intro bi e t; rfl
  | succ fuel ih =>
    intro bi e t
    have happ := inch_sellLoopRun_no_approve w T (w.balances bi) e t
    rw [inch_runLoopF_step]
    by_cases hret : (sellLoopRun w T (w.balances bi) e t).returned
    · rw [if_pos hret]; exact happ
    · rw [if_neg hret]
      by_cases hb : w.balances bi = 0
      · rw [if_pos hb]; exact happ
      · rw [if_neg hb]
        simp only [List.filter_append, happ, ih, List.nil_append]

/-- The 1inch inner loop never reads the allowance oracle. -/
theorem inch_sellLoopF_allow (w : World) (T al : Nat) (ar : Bool) :
    ∀ fuel a e t,
      sellLoopF {w with allowance := al, allowanceRaises := ar} T fuel a e t
        = sellLoopF w T fuel a e t := by
  intro fuel
  induction fuel with
  | zero => intro a e t; rfl
  | succ fuel ih =>
    intro a e t
    by_cases hTa : T ≤ a
    · by_cases hE : truthy (w.estGas e) = true
      · rw [inch_sellLoopF_submit w T fuel a e t hTa hE,
          inch_sellLoopF_submit {w with allowance := al, allowanceRaises := ar} T fuel a e t hTa hE]
        exact rfl
      · have hE' : truthy (w.estGas e) = false := by simpa using hE
        rw [inch_sellLoopF_skip w T fuel a e t hTa hE',
          inch_sellLoopF_skip {w with allowance := al, allowanceRaises := ar} T fuel a e t hTa hE',
          ih (a / 2) (e + 1) t]
        exact rfl
    · rw [inch_sellLoopF_stop w T fuel a e t hTa,
        inch_sellLoopF_stop {w with allowance := al, allowanceRaises := ar} T fuel a e t hTa]

/-- A 1inch pass never reads the allowance oracle. -/
theorem inch_sellLoopRun_allow (w : World) (T al : Nat) (ar : Bool) (a e t : Nat) :
    sellLoopRun {w with allowance := al, allowanceRaises := ar} T a e t
      = sellLoopRun w T a e t := by
  unfold sellLoopRun
  rw [inch_sellLoopF_allow w T al ar (a + 1) a e t]

/-- The 1inch outer loop never reads the allowance oracle. -/
theorem inch_runLoopF_allow (w : World) (T al : Nat) (ar : Bool) :
    ∀ fuel bi e t,
      runLoopF {w with allowance := al, allowanceRaises := ar} T fuel bi e t
        = runLoopF w T fuel bi e t := by
  intro fuel
  induction fuel with
  | zero => intro bi e t; rfl
  | succ fuel ih =>
    intro bi e t
    have hbal : ({w with allowance := al, allowanceRaises := ar} : World).balances
        = w.balances := rfl
    rw [inch_runLoopF_step, inch_runLoopF_step, hbal, inch_sellLoopRun_allow w T al ar,
      ih (bi + 1)]

end SellBablInch

namespace SellBabl

/-- One unfolding of `run` into its allowance gate. -/
theorem run_eq_if (w : World) (T fuel : Nat) :
    run w T fuel =
      if check_allowance w (w.balances 0) = true then runLoopF w T fuel 1 0 0
      else ([], RunResult.insufficientAllowance) := rfl

/-- C1 (amended): for every positive threshold T and balance B, when no
gas estimation returns a truthy value — so no transaction is submitted
during the pass — the amounts passed to gas estimation by one pass of
the halving loop are exactly B, ⌊B/2⌋, ⌊B/4⌋, …, stopping before the
first term < T; in particular estimation failures never change the
sequence.  (As stated unconditionally the claim is false: a submitted
transaction makes the pass return early, see the counterexample.) -/
theorem C1_attempt_sequence (w : World) (T b e t : Nat) (hT : 1 ≤ T)
    (hest : ∀ i, truthy (w.estGas i) = false) :
    attempts (sellLoopRun w T b e t).evs = specSeq T b := by
  have h := sellLoopRun_eq w T (b + 1) b e t hT (Nat.lt_succ_self b)
  exact (sellLoopF_noTruthy w T hest (b + 1) b e t _ h).1

/-- Witness for C1 at T = 10^18 and B = 2·10^18 on an oracle whose
every gas estimation raises. -/
theorem C1_attempt_sequence_witness :
    (1 ≤ 10 ^ 18) ∧ (∀ i, truthy (oracleFail.estGas i) = false) ∧
      attempts (sellLoopRun oracleFail (10 ^ 18) (2 * 10 ^ 18) 0 0).evs
        = specSeq (10 ^ 18) (2 * 10 ^ 18) :=
  ⟨by decide, fun _ => rfl,
    C1_attempt_sequence oracleFail (10 ^ 18) (2 * 10 ^ 18) 0 0 (by decide) (fun _ => rfl)⟩

/-- C1 as stated is false on the code: when estimation succeeds at the
full balance, the transaction is submitted and the pass returns, so
only one amount is passed to estimation instead of the full halving
sequence. -/
theorem C1_cx :
    attempts (sellLoopRun oracleOk (10 ^ 18) (4 * 10 ^ 18) 0 0).evs = [4 * 10 ^ 18] ∧
    specSeq (10 ^ 18) (4 * 10 ^ 18) = [4 * 10 ^ 18, 2 * 10 ^ 18, 10 ^ 18] ∧
    attempts (sellLoopRun oracleOk (10 ^ 18) (4 * 10 ^ 18) 0 0).evs
      ≠ specSeq (10 ^ 18) (4 * 10 ^ 18) :=
  ⟨by decide, by decide, by decide⟩

/-- C2: evaluation at the failing input.  On an oracle where estimation
succeeds and the only submitted transaction's receipt reports status 1
(success), the run nevertheless exits immediately after it: exactly one
amount is attempted and the halved amount is never tried — contradicting
the spec's policy that only a confirmed failure terminates the loop.
Cause: `sell` returns `None` on its success path too (line 205), and
`run` treats `None` as failure (lines 92-94). -/
theorem C2_success_receipt_still_exits :
    receipts (run oracleOk (10 ^ 18) 5).1 = [(4 * 10 ^ 18, 1)] ∧
    (run oracleOk (10 ^ 18) 5).2 = RunResult.earlyReturn ∧
    attempts (run oracleOk (10 ^ 18) 5).1 = [4 * 10 ^ 18] :=
  ⟨by decide, by decide, by decide⟩

/-- C3 (amended): if gas estimation fails on every call then no sell
transaction is ever submitted at any amount and every pass of the inner
halving loop terminates (the fuel `b + 1` always suffices); but the run
itself does not terminate once the amounts fall below the threshold —
with the allowance gate passed it keeps looping for any fuel while the
balances it reads are nonzero. -/
theorem C3_no_submit_inner_terminates (w : World) (T fuel b e t n : Nat)
    (hT : 1 ≤ T) (hest : ∀ i, w.estGas i = none) :
    (run w T fuel).1.filter isSubmit = [] ∧
    (sellLoopF w T (b + 1) b e t).isSome = true ∧
    (check_allowance w (w.balances 0) = true →
      (∀ k, k < n → w.balances (k + 1) ≠ 0) →
      (run w T n).2 = RunResult.outOfFuel) := by
  have hest' : ∀ i, truthy (w.estGas i) = false := fun i => by rw [hest i]; rfl
  refine ⟨?_, sellLoopF_isSome w T hT (b + 1) b e t (Nat.lt_succ_self b), ?_⟩
  · rw [run_eq_if]
    by_cases hca : check_allowance w (w.balances 0) = true
    · rw [if_pos hca]
      exact runLoopF_no_submit w T hest' fuel 1 0 0
    · rw [if_neg hca]
      rfl
  · intro hca hbal
    rw [run_eq_if, if_pos hca]
    refine (runLoopF_outOfFuel_iff w T hest' n 1 0 0).mpr ?_
    intro k hk
    have := hbal k hk
    rwa [Nat.add_comm] at this

/-- Witness for C3 on an oracle with all estimations failing and a
constant nonzero balance. -/
theorem C3_no_submit_inner_terminates_witness :
    (1 ≤ 10 ^ 18) ∧ (∀ i, oracleFail.estGas i = none) ∧
      ((run oracleFail (10 ^ 18) 3).1.filter isSubmit = [] ∧
        (sellLoopF oracleFail (10 ^ 18) (2 * 10 ^ 18 + 1) (2 * 10 ^ 18) 0 0).isSome = true ∧
        (check_allowance oracleFail (oracleFail.balances 0) = true →
          (∀ k, k < 2 → oracleFail.balances (k + 1) ≠ 0) →
          (run oracleFail (10 ^ 18) 2).2 = RunResult.outOfFuel)) :=
  ⟨by decide, fun _ => rfl,
    C3_no_submit_inner_terminates oracleFail (10 ^ 18) 3 (2 * 10 ^ 18) 0 0 2
      (by decide) (fun _ => rfl)⟩

/-- C3's termination clause is false as stated: with every estimation
failing and a constant nonzero balance, the run never terminates — for
every fuel the modelled `while True` loop is still running, because
only a zero balance breaks it. -/
theorem C3_cx : ¬ ∃ fuel, (run oracleFail (10 ^ 18) fuel).2 ≠ RunResult.outOfFuel := by
  rintro ⟨fuel, hf⟩
  apply hf
  have hest : ∀ i, truthy (oracleFail.estGas i) = false := fun _ => rfl
  rw [run_eq_if, if_pos (by decide)]
  refine (runLoopF_outOfFuel_iff oracleFail (10 ^ 18) hest fuel 1 0 0).mpr ?_
  intro k hk
  exact (by decide : (2 * 10 ^ 18 : Nat) ≠ 0)

/-- C4: at an amount where gas estimation fails (raises), the pass adds
only the estimation event for that amount — no transaction is submitted
for it — the amount is halved exactly once, and the pass continues as
the pass from the halved amount: its remaining actions, counters and
outcome are exactly those of the continuation, so the loop does not
terminate there. -/
theorem C4_skip_on_estimation_failure (w : World) (T a e t : Nat)
    (hT : 1 ≤ T) (ha : T ≤ a) (hE : w.estGas e = none) :
    sellLoopRun w T a e t =
      ⟨Ev.estimate (build_transaction w (e + t) a 0) none
          :: (sellLoopRun w T (a / 2) (e + 1) t).evs,
        (sellLoopRun w T (a / 2) (e + 1) t).estIdx,
        (sellLoopRun w T (a / 2) (e + 1) t).txIdx,
        (sellLoopRun w T (a / 2) (e + 1) t).returned⟩ := by
  have htr : truthy (w.estGas e) = false := by rw [hE]; rfl
  have hstep := sellLoopF_skip w T a a e t ha htr
  have hdiv : a / 2 < a := Nat.div_lt_self (by omega) (by omega)
  have hrec := sellLoopRun_eq w T a (a / 2) (e + 1) t hT hdiv
  have hmain : sellLoopF w T (a + 1) a e t =
      some ⟨Ev.estimate (build_transaction w (e + t) a 0) none
              :: (sellLoopRun w T (a / 2) (e + 1) t).evs,
            (sellLoopRun w T (a / 2) (e + 1) t).estIdx,
            (sellLoopRun w T (a / 2) (e + 1) t).txIdx,
            (sellLoopRun w T (a / 2) (e + 1) t).returned⟩ := by
    rw [hstep, hrec]
    simp [hE]
  show (sellLoopF w T (a + 1) a e t).getD _ = _
  rw [hmain]
  rfl

/-- Witness for C4 at T = 10^18, a = 2·10^18 on the all-failing
oracle. -/
theorem C4_skip_on_estimation_failure_witness :
    (1 ≤ 10 ^ 18) ∧ (10 ^ 18 ≤ 2 * 10 ^ 18) ∧ oracleFail.estGas 0 = none ∧
      sellLoopRun oracleFail (10 ^ 18) (2 * 10 ^ 18) 0 0 =
        ⟨Ev.estimate (build_transaction oracleFail (0 + 0) (2 * 10 ^ 18) 0) none
            :: (sellLoopRun oracleFail (10 ^ 18) (2 * 10 ^ 18 / 2) (0 + 1) 0).evs,
          (sellLoopRun oracleFail (10 ^ 18) (2 * 10 ^ 18 / 2) (0 + 1) 0).estIdx,
          (sellLoopRun oracleFail (10 ^ 18) (2 * 10 ^ 18 / 2) (0 + 1) 0).txIdx,
          (sellLoopRun oracleFail (10 ^ 18) (2 * 10 ^ 18 / 2) (0 + 1) 0).returned⟩ :=
  ⟨by decide, by decide, rfl,
    C4_skip_on_estimation_failure oracleFail (10 ^ 18) (2 * 10 ^ 18) 0 0
      (by decide) (by decide) rfl⟩

/-- C5 (amended): with B = 2,000,000 and T = 1,000,000 (the 1inch
variant's threshold) and no truthy estimation, the pass attempts both
2,000,000 and 1,000,000: the comparison on line 86 is `>=`, so
`floor(B/2) = 1,000,000` is still attempted — two attempts occur, not
one. -/
theorem C5_boundary (w : World) (e t : Nat)
    (hest : ∀ i, truthy (w.estGas i) = false) :
    attempts (SellBablInch.sellLoopRun w 1000000 2000000 e t).evs
      = [2000000, 1000000] := by
  have h1 := SellBablInch.inch_sellLoopF_isSome w 1000000 (by omega)
    (2000000 + 1) 2000000 e t (by omega)
  obtain ⟨o, ho⟩ := Option.isSome_iff_exists.mp h1
  have h2 := (SellBablInch.inch_sellLoopF_noTruthy w 1000000 hest
    (2000000 + 1) 2000000 e t o ho).1
  have h3 : SellBablInch.sellLoopRun w 1000000 2000000 e t = o := by
    show (SellBablInch.sellLoopF w 1000000 (2000000 + 1) 2000000 e t).getD _ = o
    rw [ho]
    rfl
  rw [h3, h2]
  decide

/-- Witness for C5 on the all-failing oracle. -/
theorem C5_boundary_witness :
    (∀ i, truthy (oracleNoAllow.estGas i) = false) ∧
      attempts (SellBablInch.sellLoopRun oracleNoAllow 1000000 2000000 0 0).evs
        = [2000000, 1000000] :=
  ⟨fun _ => rfl, C5_boundary oracleNoAllow 0 0 (fun _ => rfl)⟩

/-- C5 as stated ("exactly one attempt is made") is false: with all
estimations failing, the pass with B = 2,000,000 and T = 1,000,000
makes two attempts, because the `>=` comparison admits the boundary
amount 1,000,000. -/
theorem C5_cx :
    attempts (SellBablInch.sellLoopRun oracleNoAllow 1000000 2000000 0 0).evs
        = [2000000, 1000000] ∧
      (attempts (SellBablInch.sellLoopRun oracleNoAllow 1000000 2000000 0 0).evs).length
        ≠ 1 :=
  ⟨by decide, by decide⟩

/-- C6 (amended): `BotManager.run` halts without entering the loop when
the allowance is insufficient; `InchBotManager.run` merely logs — its
approval call is commented out — and proceeds into the sell loop with
behavior completely independent of the allowance responses, never
submitting an approval transaction. -/
theorem C6_allowance_gate (w : World) (T fuel al : Nat) (ar : Bool) :
    (check_allowance w (w.balances 0) = false →
      run w T fuel = ([], RunResult.insufficientAllowance)) ∧
    SellBablInch.run {w with allowance := al, allowanceRaises := ar} T fuel
      = SellBablInch.run w T fuel ∧
    (SellBablInch.run w T fuel).1.filter isApprove = [] := by
  refine ⟨?_, ?_, ?_⟩
  · intro h
    rw [run_eq_if, if_neg (by simp [h])]
  · show SellBablInch.runLoopF {w with allowance := al, allowanceRaises := ar} T fuel 1 0 0
        = SellBablInch.runLoopF w T fuel 1 0 0
    exact SellBablInch.inch_runLoopF_allow w T al ar fuel 1 0 0
  · show (SellBablInch.runLoopF w T fuel 1 0 0).1.filter isApprove = []
    exact SellBablInch.inch_runLoopF_no_approve w T fuel 1 0 0

/-- Witness for C6 on the zero-allowance oracle. -/
theorem C6_allowance_gate_witness :
    check_allowance oracleNoAllow (oracleNoAllow.balances 0) = false ∧
      run oracleNoAllow 1000000 3 = ([], RunResult.insufficientAllowance) :=
  ⟨by decide, (C6_allowance_gate oracleNoAllow 1000000 3 5 true).1 (by decide)⟩

/-- C6 as stated is false for `InchBotManager.run`: with a zero
allowance it still proceeds into the sell loop — amounts are passed to
gas estimation — and no approval transaction is ever attempted. -/
theorem C6_cx :
    check_allowance oracleNoAllow (oracleNoAllow.balances 0) = false ∧
    attempts (SellBablInch.run oracleNoAllow 1000000 1).1 = [2000000, 1000000] ∧
    (SellBablInch.run oracleNoAllow 1000000 1).1.filter isApprove = [] :=
  ⟨by decide, by decide, by decide⟩

/-- C7 (amended): within a pass the attempted amounts are monotonically
non-increasing — each successive attempt is the floor half of the
previous — and every attempted amount is at or above the threshold;
when no estimation is truthy and the allowance gate passes, the run
fails to terminate (for any fuel) exactly while every balance it reads
is nonzero, i.e. absent an early return it terminates exactly when the
reported balance is zero.  (A submitted transaction instead terminates
the run early even with remaining ≥ threshold and a nonzero balance —
see the counterexample.) -/
theorem C7_monotone_termination (w : World) (T fuel b e t : Nat)
    (hest : ∀ i, truthy (w.estGas i) = false)
    (hca : check_allowance w (w.balances 0) = true) :
    List.Chain' (fun x y => y = x / 2) (attempts (sellLoopRun w T b e t).evs) ∧
    (∀ x ∈ attempts (sellLoopRun w T b e t).evs, T ≤ x) ∧
    ((run w T fuel).2 = RunResult.outOfFuel ↔
      ∀ k, k < fuel → w.balances (k + 1) ≠ 0) := by
  have hgd : sellLoopRun w T b e t = (sellLoopF w T (b + 1) b e t).getD ⟨[], e, t, false⟩ := rfl
  have hchain : List.Chain' (fun x y => y = x / 2) (attempts (sellLoopRun w T b e t).evs) ∧
      ∀ x ∈ attempts (sellLoopRun w T b e t).evs, T ≤ x := by
    cases h : sellLoopF w T (b + 1) b e t with
    | none =>
      rw [hgd, h, Option.getD_none]
      exact ⟨List.chain'_nil, by simp⟩
    | some o =>
      obtain ⟨k1, k2, _⟩ := sellLoopF_chain w T (b + 1) b e t o h
      rw [hgd, h, Option.getD_some]
      exact ⟨k1, k2⟩
  refine ⟨hchain.1, hchain.2, ?_⟩
  rw [run_eq_if, if_pos hca,
    runLoopF_outOfFuel_iff w T hest fuel 1 0 0]
  constructor
  · intro h k hk
    have := h k hk
    rwa [Nat.add_comm] at this
  · intro h k hk
    have := h k hk
    rwa [Nat.add_comm] at this

/-- Witness for C7 on the all-failing oracle with fuel 2. -/
theorem C7_monotone_termination_witness :
    (∀ i, truthy (oracleFail.estGas i) = false) ∧
      check_allowance oracleFail (oracleFail.balances 0) = true ∧
      (List.Chain' (fun x y => y = x / 2)
          (attempts (sellLoopRun oracleFail (10 ^ 18) (2 * 10 ^ 18) 0 0).evs) ∧
        (∀ x ∈ attempts (sellLoopRun oracleFail (10 ^ 18) (2 * 10 ^ 18) 0 0).evs,
          10 ^ 18 ≤ x) ∧
        ((run oracleFail (10 ^ 18) 2).2 = RunResult.outOfFuel ↔
          ∀ k, k < 2 → oracleFail.balances (k + 1) ≠ 0)) :=
  ⟨fun _ => rfl, by decide,
    C7_monotone_termination oracleFail (10 ^ 18) 2 (2 * 10 ^ 18) 0 0
      (fun _ => rfl) (by decide)⟩

/-- C7's termination condition is false as stated: on an oracle with a
successful estimation and a success receipt, the run terminates by
early return while the only attempted amount, 4·10^18, is still at or
above the threshold 10^18 and the reported balance is nonzero. -/
theorem C7_cx :
    (run oracleOk (10 ^ 18) 5).2 = RunResult.earlyReturn ∧
    (run oracleOk (10 ^ 18) 5).2 ≠ RunResult.outOfFuel ∧
    attempts (run oracleOk (10 ^ 18) 5).1 = [4 * 10 ^ 18] ∧
    oracleOk.balances 1 ≠ 0 :=
  ⟨by decide, by decide, by decide, by decide⟩

/-- C8: when the reported balance is 0 (both the pre-loop read and the
first in-loop read), the allowance query does not raise and the
threshold is positive, the run performs no external sell action at all
— gas estimation is never called — and exits reporting drained on its
first pass, whatever the remaining fuel. -/
theorem C8_zero_balance (w : World) (T fuel : Nat) (hT : 1 ≤ T)
    (hA : w.allowanceRaises = false) (h0 : w.balances 0 = 0) (h1 : w.balances 1 = 0) :
    run w T (fuel + 1) = ([], RunResult.drained) := by
  have hca : check_allowance w (w.balances 0) = true := by
    simp [check_allowance, hA, h0]
  rw [run_eq_if, if_pos hca, runLoopF_step]
  have hloop : sellLoopRun w T (w.balances 1) 0 0 = ⟨[], 0, 0, false⟩ := by
    rw [h1]
    show (sellLoopF w T (0 + 1) 0 0 0).getD _ = _
    rw [sellLoopF_stop w T 0 0 0 0 (by omega)]
    rfl
  rw [hloop]
  simp [h1]

/-- Witness for C8 on the zero-balance oracle. -/
theorem C8_zero_balance_witness :
    (1 ≤ 10 ^ 18) ∧ oracleZero.allowanceRaises = false ∧
      oracleZero.balances 0 = 0 ∧ oracleZero.balances 1 = 0 ∧
      run oracleZero (10 ^ 18) 1 = ([], RunResult.drained) :=
  ⟨by decide, rfl, rfl, rfl,
    C8_zero_balance oracleZero (10 ^ 18) 0 (by decide) rfl rfl rfl⟩

/-- C9: two runs against identical balance, allowance, estimation,
submission and receipt responses produce the same sequence of attempted
amounts and the same exit result, even if the nonce and fee responses —
the only other external inputs, which do change between two real runs —
differ arbitrarily. -/
theorem C9_same_attempts (w : World) (n b g : Nat → Nat) (T fuel : Nat) :
    attempts (run {w with nonces := n, baseFee := b, gasPrice := g} T fuel).1
        = attempts (run w T fuel).1 ∧
      (run {w with nonces := n, baseFee := b, gasPrice := g} T fuel).2
        = (run w T fuel).2 := by
  have hb : ({w with nonces := n, baseFee := b, gasPrice := g} : World).balances
      = w.balances := rfl
  have hca : check_allowance {w with nonces := n, baseFee := b, gasPrice := g} (w.balances 0)
      = check_allowance w (w.balances 0) := rfl
  rw [run_eq_if, run_eq_if, hb, hca]
  by_cases h : check_allowance w (w.balances 0) = true
  · rw [if_pos h, if_pos h]
    exact runLoopF_obs w T n b g fuel 1 0 0
  · rw [if_neg h, if_neg h]
    exact ⟨rfl, rfl⟩

/-- C10: for every oracle and amount, `sell` with
`only_estimate = False` returns `None` on every path — receipt success,
receipt failure and submission exception alike — in both variants, so
the caller cannot distinguish a confirmed-successful sell from a failed
one by the return value; with `only_estimate = True` it returns the
gas-estimation response. -/
theorem C10_sell_always_none (w : World) (e t a m : Nat) :
    (sell w e t a m false).1 = none ∧
    (SellBablInch.sell w e t a m false).1 = none ∧
    (sell w e t a m true).1 = w.estGas e ∧
    (SellBablInch.sell w e t a m true).1 = w.estGas e :=
  ⟨sell_exec_fst w e t a m, SellBablInch.inch_sell_exec_fst w e t a m, rfl, rfl⟩

end SellBabl
